import Mathlib

/-!
Shallow embedding of the HelmChart reconciliation control loop of
`controllers/helmchart_controller.go` (CloudXLR8R/source-controller).

The Go controller drives a HelmChart object through admission, deletion,
storage reconciliation, source acquisition, chart build and artifact
publication.  External collaborators that do not live in the excerpted
source (the `Storage` capability, the `fluxcd/pkg/runtime/conditions`
library and the `reconcileSource` stage) are modelled from the spec and
are marked as such in their doc comments; everything else is translated
directly from the Go source.
-/

namespace SrcCtrl

/-- Status value of a condition, mirroring `metav1.ConditionStatus`
(`True` / `False` / `Unknown`). -/
inductive CStatus where
  | ctrue
  | cfalse
  | cunknown
deriving DecidableEq, Repr

/-- One entry of `status.conditions`: a named signal with status, reason
and message, mirroring `metav1.Condition`. -/
structure Condition where
  ctype : String
  status : CStatus
  reason : String
  message : String
deriving DecidableEq, Repr

/-- Condition type names used by the controller (from
`sourcev1`/`meta` constants). -/
def BuildFailedCondition : String := "BuildFailed"

def FetchFailedCondition : String := "FetchFailed"

def ArtifactOutdatedCondition : String := "ArtifactOutdated"

def ArtifactUnavailableCondition : String := "ArtifactUnavailable"

def ReadyCondition : String := "Ready"

def ReconcilingCondition : String := "Reconciling"

def StalledCondition : String := "Stalled"

def SucceededReason : String := "Succeeded"

def StorageOperationFailedReason : String := "StorageOperationFailed"

def SourceFinalizer : String := "finalizers.fluxcd.io"

/-- Modelled from the spec: `conditions.Set` of `fluxcd/pkg/runtime`
(not under src/): update the condition with the same type in place, or
append it ("Condition set is append/update/delete only — no two entries
share a name"). -/
def setCondition (conds : List Condition) (c : Condition) : List Condition :=
  if conds.any (fun d => d.ctype = c.ctype) then
    conds.map (fun d => if d.ctype = c.ctype then c else d)
  else
    conds ++ [c]

/-- Modelled from the spec: `conditions.Delete` of `fluxcd/pkg/runtime`
(not under src/): remove the condition with the given type. -/
def deleteCondition (conds : List Condition) (t : String) : List Condition :=
  conds.filter (fun d => d.ctype ≠ t)

/-- Modelled from the spec: `conditions.Get` of `fluxcd/pkg/runtime`
(not under src/): the condition with the given type, if present. -/
def getCondition (conds : List Condition) (t : String) : Option Condition :=
  conds.find? (fun d => d.ctype = t)

/-- Whether the condition with type `t` is present with status `True`. -/
def isTrueCond (conds : List Condition) (t : String) : Bool :=
  match getCondition conds t with
  | some c => c.status = CStatus.ctrue
  | none => false

/-- A URL, split into the storage hostname and the path below it, so that
`Storage.SetHostname` can be expressed without string parsing. -/
structure Url where
  host : String
  path : String
deriving DecidableEq, Repr

/-- An artifact as stored and advertised: identity-scoped storage
namespace key (`kind/namespace/name`), file name below it, logical
revision, checksum and public URL (mirrors `sourcev1.Artifact`). -/
structure Artifact where
  objKey : String
  fileName : String
  revision : String
  checksum : String
  url : Url
deriving DecidableEq, Repr

/-- The zero value of `sourcev1.Artifact` (Go `var artifact sourcev1.Artifact`). -/
def zeroArtifact : Artifact :=
  { objKey := "", fileName := "", revision := "", checksum := "", url := ⟨"", ""⟩ }

/-- `Artifact.HasRevision` on a possibly-nil artifact pointer: a nil
artifact has no revision. -/
def hasRevision (a : Option Artifact) (rev : String) : Bool :=
  match a with
  | none => false
  | some a => a.revision = rev

/-- Modelled from the spec: the artifact `Store` capability (the
`Storage` type is not under src/): the set of stored artifacts, the
current public hostname, and the set of held per-artifact locks. -/
structure Store where
  hostname : String
  entries : List Artifact
  locks : List String
deriving DecidableEq, Repr

/-- Modelled from the spec: `Storage.ArtifactExist` — whether an artifact
with the same storage path is present in the store. -/
def artifactExist (s : Store) (a : Artifact) : Bool :=
  s.entries.any (fun e => e.objKey = a.objKey ∧ e.fileName = a.fileName)

/-- Modelled from the spec: `Storage.RemoveAll` with a wildcard selector —
delete every stored artifact in the given identity-scoped namespace. -/
def removeAll (s : Store) (key : String) : Store :=
  { s with entries := s.entries.filter (fun e => e.objKey ≠ key) }

/-- Modelled from the spec: `Storage.RemoveAllButCurrent` — delete every
stored artifact of the object except the advertised one. -/
def removeAllButCurrent (s : Store) (cur : Artifact) : Store :=
  { s with entries :=
      s.entries.filter (fun e => e.objKey ≠ cur.objKey ∨ e.fileName = cur.fileName) }

/-- Modelled from the spec: `Storage.SetArtifactURL` — refresh the
artifact public URL to the current store endpoint. -/
def setArtifactURL (s : Store) (a : Artifact) : Artifact :=
  { a with url := ⟨s.hostname, a.objKey ++ "/" ++ a.fileName⟩ }

/-- Modelled from the spec: `Storage.SetHostname` — rewrite the hostname
of a URL to the current store endpoint. -/
def setHostname (s : Store) (u : Url) : Url :=
  { u with host := s.hostname }

/-- Modelled from the spec: `Storage.CopyFromPath` — copy the built file
into the store at the artifact path (overwriting a previous file at
the same path). -/
def copyIntoStore (s : Store) (a : Artifact) : Store :=
  { s with entries :=
      (s.entries.filter (fun e => e.objKey ≠ a.objKey ∨ e.fileName ≠ a.fileName)) ++ [a] }

/-- The lock path of an artifact. -/
def lockPath (a : Artifact) : String :=
  a.objKey ++ "/" ++ a.fileName ++ ".lock"

/-- Modelled from the spec: `Storage.Lock` — acquire the per-artifact
exclusive lock (record the artifact lock path as held). -/
def lockStore (s : Store) (a : Artifact) : Store :=
  { s with locks := s.locks ++ [lockPath a] }

/-- Modelled from the spec: the `unlock` callback returned by
`Storage.Lock` — release the held per-artifact lock. -/
def unlockStore (s : Store) (a : Artifact) : Store :=
  { s with locks := s.locks.erase (lockPath a) }

/-- Reference to the upstream source declared in the HelmChart spec. -/
structure SourceRef where
  kind : String
  name : String
deriving DecidableEq, Repr

/-- Status subresource of a HelmChart (mirrors
`sourcev1.HelmChartStatus`). -/
structure HelmChartStatus where
  artifact : Option Artifact
  url : Url
  observedGeneration : Int
  lastHandledReconcileAt : String
  conditions : List Condition
deriving DecidableEq, Repr

/-- A HelmChart object: the metadata, spec and status fields the
controller reads or writes. -/
structure HelmChart where
  nspace : String
  name : String
  generation : Int
  deletionTimestamp : Option Nat
  finalizers : List String
  suspend : Bool
  interval : Nat
  sourceRef : SourceRef
  valuesFiles : List String
  reconcileRequestToken : Option String
  status : HelmChartStatus
deriving DecidableEq, Repr

/-- `obj.Kind` of a HelmChart. -/
def HelmChartKind : String := "HelmChart"

/-- The identity-scoped storage namespace key of a HelmChart, as used by
`Storage.NewArtifactFor(obj.Kind, obj, ...)`. -/
def chartObjKey (obj : HelmChart) : String :=
  HelmChartKind ++ "/" ++ obj.nspace ++ "/" ++ obj.name

/-- Modelled from the spec: `Storage.NewArtifactFor` (not under src/) —
a fresh artifact record for the object with the given revision and file
name, with its URL pointing at the current store endpoint. -/
def newArtifactFor (s : Store) (obj : HelmChart) (revision fileName : String) : Artifact :=
  { objKey := chartObjKey obj
    fileName := fileName
    revision := revision
    checksum := ""
    url := ⟨s.hostname, chartObjKey obj ++ "/" ++ fileName⟩ }

/-- `conditions.MarkTrue` on a HelmChart. -/
def markTrue (obj : HelmChart) (t reason message : String) : HelmChart :=
  { obj with status := { obj.status with
      conditions := setCondition obj.status.conditions ⟨t, CStatus.ctrue, reason, message⟩ } }

/-- `conditions.Delete` on a HelmChart. -/
def deleteCond (obj : HelmChart) (t : String) : HelmChart :=
  { obj with status := { obj.status with
      conditions := deleteCondition obj.status.conditions t } }

/-- `ctrl.Result`: requeue-now flag and requeue-after interval. -/
structure CtrlResult where
  requeue : Bool
  requeueAfter : Nat
deriving DecidableEq, Repr

/-- `ctrl.Result{}.IsZero()`. -/
def CtrlResult.isZero (r : CtrlResult) : Bool :=
  r.requeue = false ∧ r.requeueAfter = 0

/-- An emitted event record: severity, reason, message. -/
structure Event where
  severity : String
  reason : String
  message : String
deriving DecidableEq, Repr

/-- Per-pass oracle for the external collaborator outcomes: which
fallible collaborator calls succeed, and what values the builder
returns.  All collaborator calls are blocking within a pass, so one
record of outcomes per pass is a faithful shallow embedding. -/
structure Env where
  removeAllOk : Bool
  removeAllButCurrentOk : Bool
  mkdirTempOk : Bool
  sourceOk : Bool
  loadMetadataOk : Bool
  metaName : String
  metaVersion : String
  mergeOk : Bool
  chartIsDirOk : Bool
  chartIsDir : Bool
  fetchDepsOk : Bool
  buildOk : Bool
  builtPath : String
  mkdirAllOk : Bool
  lockOk : Bool
  copyOk : Bool
  symlinkOk : Bool
deriving DecidableEq, Repr

/-- Outcome of `garbageCollect`: possibly updated object and store, an
optional error, and the emitted events. -/
structure GcOut where
  obj : HelmChart
  store : Store
  err : Option String
  events : List Event
deriving DecidableEq, Repr

/-- Outcome of a sub-reconciler or of a whole pass: updated object and
store, the `ctrl.Result`, an optional error, and the emitted events. -/
structure StageOut where
  obj : HelmChart
  store : Store
  result : CtrlResult
  err : Option String
  events : List Event
deriving DecidableEq, Repr

/-- `garbageCollect` (helmchart_controller.go:412-434): with a deletion
timestamp set, remove every artifact of the object by wildcard and clear
the advertised artifact; otherwise, if an artifact is advertised, remove
all stored artifacts but the current one.  Errors are returned to the
caller together with a failure event. -/
def garbageCollect (obj : HelmChart) (store : Store) (env : Env) : GcOut :=
  if obj.deletionTimestamp.isSome then
    if env.removeAllOk then
      { obj := { obj with status := { obj.status with artifact := none } }
        store := removeAll store (chartObjKey obj)
        err := none
        events := [⟨"info", "GarbageCollectionSucceeded",
          "Garbage collected artifacts for deleted resource"⟩] }
    else
      { obj := obj, store := store
        err := some "garbage collection for deleted resource failed"
        events := [⟨"error", "GarbageCollectionFailed",
          "Garbage collection for deleted resource failed"⟩] }
  else
    match obj.status.artifact with
    | some cur =>
      if env.removeAllButCurrentOk then
        { obj := obj, store := removeAllButCurrent store cur
          err := none
          events := [⟨"info", "GarbageCollectionSucceeded", "Garbage collected old artifacts"⟩] }
      else
        { obj := obj, store := store
          err := some "garbage collection of old artifacts failed"
          events := [⟨"error", "GarbageCollectionFailed",
            "Garbage collection of old artifacts failed"⟩] }
    | none => { obj := obj, store := store, err := none, events := [] }

/-- The advertised-artifact existence check of `reconcileStorage`
(helmchart_controller.go:274-277): clear the advertised artifact and URL
when the artifact is gone from storage. -/
def dropMissingArtifact (obj : HelmChart) (store : Store) : HelmChart :=
  match obj.status.artifact with
  | some a =>
    if ¬ artifactExist store a then
      { obj with status := { obj.status with artifact := none, url := ⟨"", ""⟩ } }
    else obj
  | none => obj

/-- The tail of `reconcileStorage` (helmchart_controller.go:279-291):
mark artifact-unavailable and return requeue-now when no artifact is
advertised, else clear that condition, refresh the URLs and return the
steady-state interval. -/
def storageVerdict (obj : HelmChart) (store : Store) (evs : List Event) : StageOut :=
  match obj.status.artifact with
  | none =>
    { obj := markTrue obj ArtifactUnavailableCondition "NoArtifact"
        "No artifact for resource in storage"
      store := store
      result := ⟨true, 0⟩
      err := none
      events := evs }
  | some a =>
    let obj := deleteCond obj ArtifactUnavailableCondition
    let obj := { obj with status := { obj.status with
        artifact := some (setArtifactURL store a)
        url := setHostname store obj.status.url } }
    { obj := obj, store := store, result := ⟨false, obj.interval⟩, err := none
      events := evs }

/-- `reconcileStorage` (helmchart_controller.go:269-292): garbage collect
(the returned error is discarded: `_ = r.garbageCollect(ctx, obj)`),
clear an advertised artifact that is gone from storage, then apply the
`storageVerdict` tail. -/
def reconcileStorage (obj : HelmChart) (store : Store) (env : Env) : StageOut :=
  storageVerdict
    (dropMissingArtifact (garbageCollect obj store env).obj (garbageCollect obj store env).store)
    (garbageCollect obj store env).store
    (garbageCollect obj store env).events

/-- Modelled from the spec: `reconcileSource` is not under src/ (only its
call site is).  Per §4.1 stage 4 it resolves the upstream source into
the workspace; any failure is terminal for the pass and sets the
fetch-failed condition, success clears it and proceeds. -/
def reconcileSource (obj : HelmChart) (store : Store) (env : Env) : StageOut :=
  if env.sourceOk then
    { obj := deleteCond obj FetchFailedCondition, store := store
      result := ⟨false, obj.interval⟩, err := none, events := [] }
  else
    { obj := markTrue obj FetchFailedCondition "SourceFetchFailed"
        "failed to fetch source"
      store := store, result := ⟨false, 0⟩
      err := some "failed to fetch source", events := [] }

/-- Outcome of `reconcileChart`: besides the stage outcome, the values
written through the `artifact` and `chartPath` out-parameters (which the
Go caller initializes to the zero `Artifact` and `""`). -/
structure ChartOut where
  obj : HelmChart
  artifact : Artifact
  chartPath : String
  result : CtrlResult
  err : Option String
deriving DecidableEq, Repr

/-- `reconcileChart` (helmchart_controller.go:294-340): load chart
metadata; if the advertised revision equals the metadata version and the
generation is observed, return the steady interval without touching the
out-parameters; otherwise merge values files, fetch missing dependencies
for directory sources, build, and emit the new artifact record and chart
path. -/
def reconcileChart (obj : HelmChart) (store : Store) (env : Env) : ChartOut :=
  if ¬ env.loadMetadataOk then
    { obj := obj, artifact := zeroArtifact, chartPath := ""
      result := ⟨false, 0⟩, err := some "failed to load chart metadata" }
  else if hasRevision obj.status.artifact env.metaVersion ∧
      obj.generation = obj.status.observedGeneration then
    { obj := obj, artifact := zeroArtifact, chartPath := ""
      result := ⟨false, obj.interval⟩, err := none }
  else if obj.valuesFiles.length > 0 ∧ ¬ env.mergeOk then
    { obj := obj, artifact := zeroArtifact, chartPath := ""
      result := ⟨false, 0⟩, err := some "failed to merge values files" }
  else if ¬ env.chartIsDirOk then
    { obj := obj, artifact := zeroArtifact, chartPath := ""
      result := ⟨false, 0⟩, err := some "failed to determine chart source type" }
  else if env.chartIsDir ∧ ¬ env.fetchDepsOk then
    { obj := obj, artifact := zeroArtifact, chartPath := ""
      result := ⟨false, 0⟩, err := some "failed to fetch missing dependencies" }
  else if ¬ env.buildOk then
    { obj := obj, artifact := zeroArtifact, chartPath := ""
      result := ⟨false, 0⟩, err := some "failed to build chart" }
  else
    { obj := obj
      artifact := newArtifactFor store obj env.metaVersion
        (env.metaName ++ "-" ++ env.metaVersion ++ ".tgz")
      chartPath := env.builtPath
      result := ⟨false, obj.interval⟩, err := none }

/-- First step of the deferred block of `reconcileArtifact`
(helmchart_controller.go:345-347): clear artifact-unavailable when an
artifact is advertised. -/
def clearUnavailable (obj : HelmChart) : HelmChart :=
  if obj.status.artifact.isSome then
    deleteCond obj ArtifactUnavailableCondition
  else obj

/-- The deferred block of `reconcileArtifact`
(helmchart_controller.go:344-353), applied to the object on every exit
path: clear artifact-unavailable when an artifact is advertised, and
when the advertised revision equals the freshly built one, clear
artifact-outdated and mark ready. -/
def restoreReadyDefer (artifact : Artifact) (obj : HelmChart) : HelmChart :=
  if hasRevision (clearUnavailable obj).status.artifact artifact.revision then
    markTrue (deleteCond (clearUnavailable obj) ArtifactOutdatedCondition)
      ReadyCondition SucceededReason
      ("Stored artifact for revision " ++ artifact.revision)
  else clearUnavailable obj

/-- `reconcileArtifact` (helmchart_controller.go:342-391): ensure the
artifact directory, acquire the per-artifact lock (released on every
exit path), copy the packaged chart into the store, record the artifact
on status, and refresh the `latest` symlink on a best-effort basis.  The
deferred `restoreReadyDefer` runs on every exit path. -/
def reconcileArtifact (obj : HelmChart) (artifact : Artifact) (path : String)
    (store : Store) (env : Env) : StageOut :=
  if ¬ env.mkdirAllOk then
    { obj := restoreReadyDefer artifact obj, store := store
      result := ⟨false, 0⟩, err := some "failed to create artifact directory", events := [] }
  else if ¬ env.lockOk then
    { obj := restoreReadyDefer artifact obj, store := store
      result := ⟨false, 0⟩, err := some "failed to acquire lock for artifact", events := [] }
  else
    let locked := lockStore store artifact
    if ¬ env.copyOk then
      { obj := restoreReadyDefer artifact obj
        store := unlockStore locked artifact
        result := ⟨false, 0⟩, err := some "failed to copy chart to storage"
        events := [⟨"error", StorageOperationFailedReason,
          "Failed to write Helm repository index to storage"⟩] }
    else
      let stored := copyIntoStore locked artifact
      let obj := { obj with status := { obj.status with artifact := some artifact } }
      let symlinkUrl : Url := ⟨stored.hostname, artifact.objKey ++ "/latest.tar.gz"⟩
      let obj := if env.symlinkOk then { obj with status := { obj.status with url := symlinkUrl } }
        else obj
      { obj := restoreReadyDefer artifact obj
        store := unlockStore stored artifact
        result := ⟨false, obj.interval⟩
        err := none
        events := [⟨"info", "NewArtifact", "Stored artifact for revision " ++ artifact.revision⟩]
          ++ (if env.symlinkOk then [] else
            [⟨"error", StorageOperationFailedReason, "Failed to update status URL symlink"⟩]) }

/-- `reconcileDelete` (helmchart_controller.go:395-407): garbage collect
all artifacts of the object; on failure return the error (the
finalizer is kept), on success remove the finalizer and stop. -/
def reconcileDelete (obj : HelmChart) (store : Store) (env : Env) : StageOut :=
  match garbageCollect obj store env with
  | { obj := o, store := s, err := some e, events := evs } =>
    { obj := o, store := s, result := ⟨false, 0⟩, err := some e, events := evs }
  | { obj := o, store := s, err := none, events := evs } =>
    { obj := { o with finalizers := o.finalizers.filter (fun f => f ≠ SourceFinalizer) }
      store := s, result := ⟨false, 0⟩, err := none, events := evs }

/-- `reconcile` (helmchart_controller.go:220-259): mark reconciling,
then run storage, source, chart and artifact reconciliation in order;
a stage stops the pass when it returns an error or a zero result
("The caller should assume a failure if an error is returned, or the
Result is zero"). -/
def reconcile (obj : HelmChart) (store : Store) (env : Env) : StageOut :=
  let obj := markTrue obj ReconcilingCondition "Reconciling" ""
  let s := reconcileStorage obj store env
  if s.err.isSome ∨ s.result.isZero then s
  else
    if ¬ env.mkdirTempOk then
      let obj := markTrue s.obj FetchFailedCondition StorageOperationFailedReason
        "Failed to create temporary working directory"
      { obj := obj, store := s.store, result := ⟨false, 0⟩
        err := some "failed to create temporary working directory"
        events := s.events ++ [⟨"error", StorageOperationFailedReason,
          "Failed to create temporary working directory"⟩] }
    else
      let src := reconcileSource s.obj s.store env
      if src.err.isSome ∨ src.result.isZero then
        { src with events := s.events ++ src.events }
      else
        let c := reconcileChart src.obj src.store env
        if c.err.isSome ∨ c.result.isZero then
          { obj := c.obj, store := src.store, result := c.result, err := c.err
            events := s.events ++ src.events }
        else
          let a := reconcileArtifact c.obj c.artifact c.chartPath src.store env
          { a with events := s.events ++ src.events ++ a.events }

/-- The condition types given to `conditions.SetSummary` at
helmchart_controller.go:140-154, in call order (which is the summary
priority order); all four are also flagged as negative polarity there. -/
def summaryConditions : List String :=
  [BuildFailedCondition, FetchFailedCondition,
   ArtifactOutdatedCondition, ArtifactUnavailableCondition]

/-- Modelled from the spec: `conditions.SetSummary` of
`fluxcd/pkg/runtime` (not under src/), per §4.2: if any tracked negative
condition is true, ready is false with reason/message copied from the
first true one in priority order; otherwise ready is true. -/
def setSummary (conds : List Condition) : List Condition :=
  match summaryConditions.find? (fun t => isTrueCond conds t) with
  | some t =>
    match getCondition conds t with
    | some c => setCondition conds ⟨ReadyCondition, CStatus.cfalse, c.reason, c.message⟩
    | none => setCondition conds ⟨ReadyCondition, CStatus.ctrue, SucceededReason, ""⟩
  | none => setCondition conds ⟨ReadyCondition, CStatus.ctrue, SucceededReason, ""⟩

/-- The guard `retErr == nil && (result.IsZero() || !result.Requeue)` of
the deferred patch block (helmchart_controller.go:174): the pass ended
without an error and without requesting an immediate requeue. -/
def cleanFinish (res : CtrlResult) (err : Option String) : Bool :=
  err.isNone ∧ (res.isZero ∨ ¬ res.requeue)

/-- The stalled bookkeeping of the deferred patch block
(helmchart_controller.go:181-191): read the summarized ready condition
and mark stalled (copying its reason and message) when it is false, or
clear stalled when it is true. -/
def stalledBookkeeping (conds : List Condition) : List Condition :=
  match getCondition conds ReadyCondition with
  | some r =>
    match r.status with
    | CStatus.cfalse =>
      setCondition conds ⟨StalledCondition, CStatus.ctrue, r.reason, r.message⟩
    | CStatus.ctrue => deleteCondition conds StalledCondition
    | CStatus.cunknown => conds
  | none => conds

/-- The condition updates of the deferred patch block of `Reconcile`
(helmchart_controller.go:139-192): always summarize the ready condition;
on a clean finish additionally clear reconciling and mark or clear
stalled from the summarized ready state. -/
def finalizeConds (res : CtrlResult) (err : Option String)
    (conds : List Condition) : List Condition :=
  if cleanFinish res err then
    stalledBookkeeping (deleteCondition (setSummary conds) ReconcilingCondition)
  else setSummary conds

/-- The deferred patch block of `Reconcile`
(helmchart_controller.go:133-202): record the reconcile annotation,
apply the condition updates of `finalizeConds`, and on a clean finish
record the generation just processed as observed
(`patch.WithStatusObservedGeneration`). -/
def finalize (res : CtrlResult) (err : Option String) (obj : HelmChart) : HelmChart :=
  let obj := match obj.reconcileRequestToken with
    | some v => { obj with status := { obj.status with lastHandledReconcileAt := v } }
    | none => obj
  let obj := { obj with status := { obj.status with
      conditions := finalizeConds res err obj.status.conditions } }
  if cleanFinish res err then
    { obj with status := { obj.status with observedGeneration := obj.generation } }
  else obj

/-- The body of `Reconcile` between the suspend check and the deferred
patch block (helmchart_controller.go:204-217): add the finalizer and
requeue when it is absent, then branch to deletion or normal
reconciliation. -/
def reconcileBody (obj : HelmChart) (store : Store) (env : Env) : StageOut :=
  if ¬ obj.finalizers.contains SourceFinalizer then
    { obj := { obj with finalizers := obj.finalizers ++ [SourceFinalizer] }
      store := store, result := ⟨true, 0⟩, err := none, events := [] }
  else if obj.deletionTimestamp.isSome then
    reconcileDelete obj store env
  else
    reconcile obj store env

/-- Application of the deferred patch block to a pass outcome. -/
def applyDefer (s : StageOut) : StageOut :=
  { s with obj := finalize s.result s.err s.obj }

/-- `Reconcile` (helmchart_controller.go:106-218) for an object that
exists: return early when suspended (before the deferred patch block is
registered); otherwise run the body and apply the deferred summary/patch
block to the outcome. -/
def Reconcile (obj : HelmChart) (store : Store) (env : Env) : StageOut :=
  if obj.suspend then
    { obj := obj, store := store, result := ⟨false, 0⟩, err := none, events := [] }
  else
    applyDefer (reconcileBody obj store env)

/-- A reconcile request for a target object, keyed by namespace and
name. -/
structure Request where
  nspace : String
  name : String
deriving DecidableEq, Repr

/-- `indexHelmChartBySource` (helmchart_controller.go:448-454): the index
keys of a HelmChart under the source index. -/
def indexHelmChartBySource (hc : HelmChart) : List String :=
  [hc.sourceRef.kind ++ "/" ++ hc.sourceRef.name]

/-- Kind names of the three upstream source kinds. -/
def HelmRepositoryKind : String := "HelmRepository"

def GitRepositoryKind : String := "GitRepository"

def BucketKind : String := "Bucket"

/-- An upstream source resource as the change handlers see it: its name
and whether it currently advertises an artifact. -/
structure UpstreamSource where
  name : String
  artifact : Option Artifact
deriving DecidableEq, Repr

/-- Modelled from the spec: the accessor `list` with a field selector on
the source index ("filter may match an index key"); `listOk = false` is
a failed list call. -/
def listChartsBySourceKey (cluster : List HelmChart) (key : String) : List HelmChart :=
  cluster.filter (fun hc => (indexHelmChartBySource hc).contains key)

/-- The request for one listed HelmChart (`client.ObjectKeyFromObject`). -/
def requestFor (hc : HelmChart) : Request :=
  ⟨hc.nspace, hc.name⟩

/-- `requestsForHelmRepositoryChange` (helmchart_controller.go:456-483):
nothing when the repository has no artifact or the list call fails,
otherwise one request per HelmChart indexed under
`HelmRepository/<name>`. -/
def requestsForHelmRepositoryChange (repo : UpstreamSource) (cluster : List HelmChart)
    (listOk : Bool) : List Request :=
  match repo.artifact with
  | none => []
  | some _ =>
    if ¬ listOk then []
    else (listChartsBySourceKey cluster (HelmRepositoryKind ++ "/" ++ repo.name)).map requestFor

/-- `requestsForGitRepositoryChange` (helmchart_controller.go:485-512). -/
def requestsForGitRepositoryChange (repo : UpstreamSource) (cluster : List HelmChart)
    (listOk : Bool) : List Request :=
  match repo.artifact with
  | none => []
  | some _ =>
    if ¬ listOk then []
    else (listChartsBySourceKey cluster (GitRepositoryKind ++ "/" ++ repo.name)).map requestFor

/-- `requestsForBucketChange` (helmchart_controller.go:514-541). -/
def requestsForBucketChange (bucket : UpstreamSource) (cluster : List HelmChart)
    (listOk : Bool) : List Request :=
  match bucket.artifact with
  | none => []
  | some _ =>
    if ¬ listOk then []
    else (listChartsBySourceKey cluster (BucketKind ++ "/" ++ bucket.name)).map requestFor

/-- The readiness-derivation property of a condition set: a ready
condition is present; it is false exactly when one of the four tracked
negative conditions is true; when false, its reason and message are
those of the first true tracked condition in priority order; and when no
tracked condition is true it is true. -/
def readySummaryProp (conds : List Condition) : Prop :=
  ∃ r, getCondition conds ReadyCondition = some r ∧
    ((r.status = CStatus.cfalse) ↔ (summaryConditions.any (fun t => isTrueCond conds t) = true)) ∧
    (∀ t, summaryConditions.find? (fun t => isTrueCond conds t) = some t →
      ∃ c, getCondition conds t = some c ∧ r.reason = c.reason ∧ r.message = c.message) ∧
    (summaryConditions.any (fun t => isTrueCond conds t) = false → r.status = CStatus.ctrue)

/-!  Concrete fixtures used by witnesses and counterexamples. -/

/-- A stored and advertised artifact at revision 1.2.0. -/
def exArtifact : Artifact :=
  { objKey := "HelmChart/default/app"
    fileName := "app-1.2.0.tgz"
    revision := "1.2.0"
    checksum := "c1"
    url := ⟨"host", "HelmChart/default/app/app-1.2.0.tgz"⟩ }

/-- A store holding exactly the advertised artifact. -/
def exStore : Store := { hostname := "host", entries := [exArtifact], locks := [] }

/-- A HelmChart in the steady state left by a previous successful pass:
artifact at revision 1.2.0 advertised and present in the store,
generation observed, ready condition true. -/
def exChart : HelmChart :=
  { nspace := "default"
    name := "app"
    generation := 2
    deletionTimestamp := none
    finalizers := [SourceFinalizer]
    suspend := false
    interval := 60
    sourceRef := ⟨"HelmRepository", "repo"⟩
    valuesFiles := []
    reconcileRequestToken := none
    status :=
      { artifact := some exArtifact
        url := ⟨"host", "HelmChart/default/app/app-1.2.0.tgz"⟩
        observedGeneration := 2
        lastHandledReconcileAt := ""
        conditions := [⟨ReadyCondition, CStatus.ctrue, SucceededReason, ""⟩] } }

/-- An environment where every collaborator call succeeds and the fresh
chart metadata has the already-advertised version 1.2.0. -/
def exEnv : Env :=
  { removeAllOk := true
    removeAllButCurrentOk := true
    mkdirTempOk := true
    sourceOk := true
    loadMetadataOk := true
    metaName := "app"
    metaVersion := "1.2.0"
    mergeOk := true
    chartIsDirOk := true
    chartIsDir := false
    fetchDepsOk := true
    buildOk := true
    builtPath := "/tmp/app-1.2.0.tgz"
    mkdirAllOk := true
    lockOk := true
    copyOk := true
    symlinkOk := true }

/-- A HelmChart with no advertised artifact and a generation not yet
observed (a fresh object after finalizer addition). -/
def exChartNoArtifact : HelmChart :=
  { exChart with
    generation := 1
    status :=
      { exChart.status with
        artifact := none
        url := ⟨"", ""⟩
        observedGeneration := 0
        conditions := [] } }

/-- An empty store. -/
def exStoreEmpty : Store := { hostname := "host", entries := [], locks := [] }

/-- A previously advertised artifact at the older revision 1.1.0. -/
def exArtifactOld : Artifact :=
  { exArtifact with
    fileName := "app-1.1.0.tgz"
    revision := "1.1.0"
    url := ⟨"host", "HelmChart/default/app/app-1.1.0.tgz"⟩ }

/-- A HelmChart advertising the older revision 1.1.0, generation
observed, about to be rebuilt at 1.2.0. -/
def exChartOld : HelmChart :=
  { exChart with
    status :=
      { exChart.status with
        artifact := some exArtifactOld
        url := ⟨"host", "HelmChart/default/app/app-1.1.0.tgz"⟩ } }

/-- A store holding exactly the older advertised artifact. -/
def exStoreOld : Store := { hostname := "host", entries := [exArtifactOld], locks := [] }

/-- A freshly built artifact at revision 1.2.0, the same revision the
steady-state fixture already advertises. -/
def exFreshArtifact : Artifact := newArtifactFor exStore exChart "1.2.0" "app-1.2.0.tgz"

/-- The steady-state fixture marked for deletion. -/
def exChartDeleting : HelmChart := { exChart with deletionTimestamp := some 5 }

/-- An environment where the retain-current sweep fails but everything
else succeeds, and the upstream has moved to revision 1.3.0. -/
def exEnvGcFail : Env :=
  { exEnv with
    removeAllButCurrentOk := false
    metaVersion := "1.3.0"
    builtPath := "/tmp/app-1.3.0.tgz" }

/-- An upstream chart repository named `repo` with a published artifact. -/
def exRepo : UpstreamSource := { name := "repo", artifact := some exArtifact }

/-- A second chart referencing a different upstream source kind. -/
def exChartOther : HelmChart :=
  { exChart with name := "other", sourceRef := ⟨"GitRepository", "repo"⟩ }

/-- A cluster with one chart indexed under `HelmRepository/repo` and one
under `GitRepository/repo`. -/
def exCluster : List HelmChart := [exChart, exChartOther]


/-!  Helper lemmas about the condition model. -/

theorem find?_congr_pred {α : Type} (l : List α) (p q : α → Bool)
    (h : ∀ x ∈ l, p x = q x) : l.find? p = l.find? q := by
  induction l with
  | nil => rfl
  | cons x l ih =>
    have hx := h x (List.mem_cons_self x l)
    simp only [List.find?]
    rw [hx]
    cases hq : q x with
    | true => rfl
    | false => exact ih (fun y hy => h y (List.mem_cons_of_mem x hy))

theorem find?_filter_of_imp {α : Type} (l : List α) (p q : α → Bool)
    (h : ∀ x, p x = true → q x = true) : (l.filter q).find? p = l.find? p := by
  induction l with
  | nil => rfl
  | cons x l ih =>
    by_cases hq : q x = true
    · simp only [List.filter_cons, hq, if_true, List.find?]
      cases hp : p x with
      | true => rfl
      | false => exact ih
    · have hp : p x = false := by
        cases hpx : p x with
        | true => exact absurd (h x hpx) hq
        | false => rfl
      simp only [List.filter_cons, hq, if_false, List.find?, hp]
      exact ih

theorem find?_map_replace_self (l : List Condition) (c : Condition) :
    l.any (fun d => d.ctype = c.ctype) = true →
    (l.map (fun d => if d.ctype = c.ctype then c else d)).find?
      (fun d => d.ctype = c.ctype) = some c := by
  induction l with
  | nil => intro h; simp at h
  | cons d l ih =>
    intro h
    by_cases hd : d.ctype = c.ctype
    · simp [List.find?, hd]
    · simp only [List.any_cons, Bool.or_eq_true, decide_eq_true_eq] at h
      have hl : l.any (fun d => d.ctype = c.ctype) = true := by
        rcases h with h | h
        · exact absurd h hd
        · exact h
      simp only [List.map_cons, if_neg hd, List.find?]
      rw [decide_eq_false hd]
      exact ih hl

theorem find?_map_replace_other (l : List Condition) (c : Condition) (t : String)
    (hct : ¬ c.ctype = t) :
    (l.map (fun d => if d.ctype = c.ctype then c else d)).find? (fun d => d.ctype = t)
      = l.find? (fun d => d.ctype = t) := by
  induction l with
  | nil => rfl
  | cons d l ih =>
    by_cases hd : d.ctype = c.ctype
    · have hdt : ¬ d.ctype = t := by rw [hd]; exact hct
      simp only [List.map_cons, if_pos hd, List.find?]
      rw [decide_eq_false hct, decide_eq_false hdt]
      exact ih
    · simp only [List.map_cons, if_neg hd, List.find?]
      cases hdt : (decide (d.ctype = t)) with
      | true => rfl
      | false => exact ih

theorem find?_append_single (l : List Condition) (c : Condition) (t : String) :
    (l ++ [c]).find? (fun d => d.ctype = t) =
      match l.find? (fun d => d.ctype = t) with
      | some d => some d
      | none => if c.ctype = t then some c else none := by
  induction l with
  | nil =>
    by_cases hct : c.ctype = t <;> simp [List.find?, hct]
  | cons d l ih =>
    simp only [List.cons_append, List.find?]
    cases hdt : (decide (d.ctype = t)) with
    | true => rfl
    | false => exact ih

theorem getCondition_set (conds : List Condition) (c : Condition) (t : String) :
    getCondition (setCondition conds c) t =
      if c.ctype = t then some c else getCondition conds t := by
  unfold getCondition setCondition
  by_cases hany : conds.any (fun d => d.ctype = c.ctype) = true
  · simp only [hany, if_true]
    by_cases hct : c.ctype = t
    · subst hct
      rw [if_pos rfl]
      exact find?_map_replace_self conds c hany
    · rw [if_neg hct]
      exact find?_map_replace_other conds c t hct
  · rw [if_neg hany]
    rw [find?_append_single]
    have hnone : conds.find? (fun d => d.ctype = c.ctype) = none := by
      rw [List.find?_eq_none]
      intro x hx hcontra
      simp only [decide_eq_true_eq] at hcontra
      exact hany (List.any_eq_true.mpr ⟨x, hx, decide_eq_true hcontra⟩)
    by_cases hct : c.ctype = t
    · subst hct
      rw [hnone, if_pos rfl]
    · rw [if_neg hct, if_neg hct]
      cases h : conds.find? (fun d => d.ctype = t) <;> rfl

theorem getCondition_delete (conds : List Condition) (t t' : String) :
    getCondition (deleteCondition conds t') t =
      if t = t' then none else getCondition conds t := by
  unfold getCondition deleteCondition
  by_cases h : t = t'
  · subst h
    rw [if_pos rfl]
    rw [List.find?_eq_none]
    intro x hx
    simp only [List.mem_filter, decide_eq_true_eq] at hx
    simp only [decide_eq_true_eq]
    intro hcontra
    exact absurd (decide_eq_true hcontra) (by simpa using hx.2)
  · rw [if_neg h]
    apply find?_filter_of_imp
    intro x hx
    simp only [decide_eq_true_eq] at hx
    simp only [ne_eq, decide_eq_true_eq]
    rw [hx]
    simpa using h

theorem isTrueCond_set (conds : List Condition) (c : Condition) (t : String) :
    isTrueCond (setCondition conds c) t =
      if c.ctype = t then decide (c.status = CStatus.ctrue) else isTrueCond conds t := by
  unfold isTrueCond
  rw [getCondition_set]
  by_cases h : c.ctype = t
  · simp [h]
  · simp [h]

theorem isTrueCond_delete (conds : List Condition) (t t' : String) :
    isTrueCond (deleteCondition conds t') t =
      if t = t' then false else isTrueCond conds t := by
  unfold isTrueCond
  rw [getCondition_delete]
  by_cases h : t = t'
  · simp [h]
  · simp [h]

theorem mem_setCondition (conds : List Condition) (c x : Condition)
    (h : x ∈ setCondition conds c) : x = c ∨ x ∈ conds := by
  unfold setCondition at h
  by_cases hany : conds.any (fun d => d.ctype = c.ctype) = true
  · rw [if_pos hany] at h
    rcases List.mem_map.mp h with ⟨d, hd, hmap⟩
    by_cases hdc : d.ctype = c.ctype
    · left
      rw [← hmap, if_pos hdc]
    · right
      rw [← hmap, if_neg hdc]
      exact hd
  · rw [if_neg hany] at h
    rcases List.mem_append.mp h with h | h
    · right; exact h
    · left; simpa using h

theorem mem_deleteCondition (conds : List Condition) (t : String) (x : Condition)
    (h : x ∈ deleteCondition conds t) : x ∈ conds :=
  (List.mem_filter.mp h).1

theorem any_congr_pred {α : Type} (l : List α) (p q : α → Bool)
    (h : ∀ x ∈ l, p x = q x) : l.any p = l.any q := by
  induction l with
  | nil => rfl
  | cons x l ih =>
    simp only [List.any_cons]
    rw [h x (List.mem_cons_self x l),
      ih (fun y hy => h y (List.mem_cons_of_mem x hy))]

theorem isTrueCond_iff (conds : List Condition) (t : String) :
    isTrueCond conds t = true ↔
      ∃ c, getCondition conds t = some c ∧ c.status = CStatus.ctrue := by
  unfold isTrueCond
  cases h : getCondition conds t with
  | none => simp
  | some c => simp [h]

theorem summary_ne_ready : ∀ t ∈ summaryConditions, ¬ ReadyCondition = t := by decide

theorem summary_ne_reconciling : ∀ t ∈ summaryConditions, ¬ t = ReconcilingCondition := by decide

theorem summary_ne_stalled : ∀ t ∈ summaryConditions, ¬ t = StalledCondition := by decide

theorem readySummaryProp_of_agree (c1 c2 : List Condition)
    (hR : getCondition c2 ReadyCondition = getCondition c1 ReadyCondition)
    (hS : ∀ t ∈ summaryConditions, getCondition c2 t = getCondition c1 t)
    (h : readySummaryProp c1) : readySummaryProp c2 := by
  obtain ⟨r, hr, hiff, hcopy, htrue⟩ := h
  have hIs : ∀ t ∈ summaryConditions, isTrueCond c2 t = isTrueCond c1 t := by
    intro t ht
    unfold isTrueCond
    rw [hS t ht]
  have hfind := find?_congr_pred summaryConditions _ _ hIs
  have hany := any_congr_pred summaryConditions _ _ hIs
  refine ⟨r, ?_, ?_, ?_, ?_⟩
  · rw [hR]; exact hr
  · rw [hany]; exact hiff
  · intro t hf
    rw [hfind] at hf
    obtain ⟨c, hc, h1, h2⟩ := hcopy t hf
    refine ⟨c, ?_, h1, h2⟩
    rw [hS t (List.mem_of_find?_eq_some hf)]
    exact hc
  · rw [hany]; exact htrue

theorem readySummaryProp_setSummary (conds : List Condition) :
    readySummaryProp (setSummary conds) := by
  have hagree : ∀ t ∈ summaryConditions,
      isTrueCond (setSummary conds) t = isTrueCond conds t := by
    intro t ht
    have hne : ¬ (ReadyCondition = t) := summary_ne_ready t ht
    unfold setSummary
    cases hf : summaryConditions.find? (fun t => isTrueCond conds t) with
    | none =>
      simp [isTrueCond_set, hne]
    | some u =>
      cases hg : getCondition conds u with
      | none =>
        simp [hg, isTrueCond_set, hne]
      | some c =>
        simp [hg, isTrueCond_set, hne]
  have hfind := find?_congr_pred summaryConditions _ _ hagree
  have hany := any_congr_pred summaryConditions _ _ hagree
  cases hf : summaryConditions.find? (fun t => isTrueCond conds t) with
  | some t =>
    have ht : isTrueCond conds t = true := List.find?_some hf
    have hmem : t ∈ summaryConditions := List.mem_of_find?_eq_some hf
    obtain ⟨c, hc, hcs⟩ := (isTrueCond_iff conds t).mp ht
    have hout : setSummary conds =
        setCondition conds ⟨ReadyCondition, CStatus.cfalse, c.reason, c.message⟩ := by
      unfold setSummary
      simp only [hf, hc]
    have hanyTrue : summaryConditions.any (fun t => isTrueCond conds t) = true :=
      List.any_eq_true.mpr ⟨t, hmem, ht⟩
    refine ⟨⟨ReadyCondition, CStatus.cfalse, c.reason, c.message⟩, ?_, ?_, ?_, ?_⟩
    · rw [hout, getCondition_set]
      simp
    · constructor
      · intro _
        rw [hany, hf] at *
        rw [hany]
        exact hanyTrue
      · intro _
        rfl
    · intro t' hf'
      rw [hfind, hf] at hf'
      cases hf'
      refine ⟨c, ?_, rfl, rfl⟩
      rw [hout, getCondition_set]
      rw [if_neg (summary_ne_ready t hmem)]
      exact hc
    · intro hfalse
      rw [hany, hanyTrue] at hfalse
      cases hfalse
  | none =>
    have hout : setSummary conds =
        setCondition conds ⟨ReadyCondition, CStatus.ctrue, SucceededReason, ""⟩ := by
      unfold setSummary
      simp only [hf]
    have hanyFalse : summaryConditions.any (fun t => isTrueCond conds t) = false := by
      cases hcase : summaryConditions.any (fun t => isTrueCond conds t) with
      | false => rfl
      | true =>
        obtain ⟨t, hmem, ht⟩ := List.any_eq_true.mp hcase
        have := List.find?_eq_none.mp hf t hmem
        rw [ht] at this
        cases this rfl
    refine ⟨⟨ReadyCondition, CStatus.ctrue, SucceededReason, ""⟩, ?_, ?_, ?_, ?_⟩
    · rw [hout, getCondition_set]
      simp
    · constructor
      · intro hcontra
        cases hcontra
      · intro hcontra
        rw [hany, hanyFalse] at hcontra
        cases hcontra
    · intro t' hf'
      rw [hfind, hf] at hf'
      cases hf'
    · intro _
      rfl

theorem getCondition_agree_delete (conds : List Condition) (t' : String)
    (hR : ¬ ReadyCondition = t') (hS : ∀ t ∈ summaryConditions, ¬ t = t') :
    getCondition (deleteCondition conds t') ReadyCondition = getCondition conds ReadyCondition
      ∧ ∀ t ∈ summaryConditions,
        getCondition (deleteCondition conds t') t = getCondition conds t := by
  constructor
  · rw [getCondition_delete, if_neg hR]
  · intro t ht
    rw [getCondition_delete, if_neg (hS t ht)]

theorem readySummaryProp_stalledBookkeeping (conds : List Condition)
    (h : readySummaryProp conds) : readySummaryProp (stalledBookkeeping conds) := by
  unfold stalledBookkeeping
  cases hg : getCondition conds ReadyCondition with
  | none => exact h
  | some r =>
    cases hrs : r.status with
    | cfalse =>
      simp only [hrs]
      refine readySummaryProp_of_agree _ _ ?_ ?_ h
      · rw [getCondition_set]
        rfl
      · intro t ht
        rw [getCondition_set]
        rw [if_neg]
        intro hcontra
        exact summary_ne_stalled t ht hcontra.symm
    | ctrue =>
      simp only [hrs]
      have hdel2 := getCondition_agree_delete conds StalledCondition
        (by decide) summary_ne_stalled
      exact readySummaryProp_of_agree _ _ hdel2.1 hdel2.2 h
    | cunknown =>
      simp only [hrs]
      exact h

theorem readySummaryProp_finalizeConds (res : CtrlResult) (err : Option String)
    (conds : List Condition) : readySummaryProp (finalizeConds res err conds) := by
  have hbase := readySummaryProp_setSummary conds
  unfold finalizeConds
  by_cases hclean : cleanFinish res err = true
  · rw [if_pos hclean]
    have hdel := getCondition_agree_delete (setSummary conds) ReconcilingCondition
      (by decide) summary_ne_reconciling
    exact readySummaryProp_stalledBookkeeping _
      (readySummaryProp_of_agree _ _ hdel.1 hdel.2 hbase)
  · rw [if_neg hclean]
    exact hbase

theorem conditions_finalize (res : CtrlResult) (err : Option String) (o : HelmChart) :
    (finalize res err o).status.conditions = finalizeConds res err o.status.conditions := by
  unfold finalize
  cases h : o.reconcileRequestToken <;> by_cases hc : cleanFinish res err = true <;>
    simp [h, hc]

theorem conditions_applyDefer (s : StageOut) :
    (applyDefer s).obj.status.conditions =
      finalizeConds s.result s.err s.obj.status.conditions :=
  conditions_finalize _ _ _

theorem any_filter_of_imp {α : Type} (l : List α) (p q : α → Bool)
    (h : ∀ x, p x = true → q x = true) : (l.filter q).any p = l.any p := by
  induction l with
  | nil => rfl
  | cons x l ih =>
    by_cases hq : q x = true
    · simp only [List.filter_cons, hq, if_true, List.any_cons, ih]
    · have hp : p x = false := by
        cases hpx : p x with
        | true => exact absurd (h x hpx) hq
        | false => rfl
      simp only [List.filter_cons]
      rw [if_neg hq]
      simp only [List.any_cons, hp, Bool.false_or]
      exact ih

theorem filter_congr_pred {α : Type} (l : List α) (p q : α → Bool)
    (h : ∀ x ∈ l, p x = q x) : l.filter p = l.filter q := by
  induction l with
  | nil => rfl
  | cons x l ih =>
    have hx := h x (List.mem_cons_self x l)
    simp only [List.filter_cons, hx,
      ih (fun y hy => h y (List.mem_cons_of_mem x hy))]

/-- An artifact present in the store survives the retain-current sweep
that keeps it. -/
theorem artifactExist_removeAllButCurrent (store : Store) (a : Artifact) :
    artifactExist (removeAllButCurrent store a) a = artifactExist store a := by
  unfold artifactExist removeAllButCurrent
  apply any_filter_of_imp
  intro e he
  simp only [decide_eq_true_eq] at he
  simp only [ne_eq, decide_eq_true_eq]
  right
  exact he.2

/-- The storage-verdict tail never returns an error. -/
theorem storageVerdict_err_none (obj : HelmChart) (store : Store) (evs : List Event) :
    (storageVerdict obj store evs).err = none := by
  unfold storageVerdict
  cases h : obj.status.artifact <;> simp only [h]

/-- The storage-reconciliation stage never returns an error: the garbage
collection error is discarded, and both exits return nil. -/
theorem reconcileStorage_err_none (obj : HelmChart) (store : Store) (env : Env) :
    (reconcileStorage obj store env).err = none := by
  unfold reconcileStorage
  exact storageVerdict_err_none _ _ _

theorem artifact_deleteCond (o : HelmChart) (t : String) :
    (deleteCond o t).status.artifact = o.status.artifact := rfl

theorem artifact_markTrue (o : HelmChart) (t r m : String) :
    (markTrue o t r m).status.artifact = o.status.artifact := rfl

theorem conds_deleteCond (o : HelmChart) (t : String) :
    (deleteCond o t).status.conditions = deleteCondition o.status.conditions t := rfl

theorem conds_markTrue (o : HelmChart) (t r m : String) :
    (markTrue o t r m).status.conditions =
      setCondition o.status.conditions ⟨t, CStatus.ctrue, r, m⟩ := rfl

theorem artifact_clearUnavailable (o : HelmChart) :
    (clearUnavailable o).status.artifact = o.status.artifact := by
  unfold clearUnavailable
  split <;> rfl

theorem ready_clearUnavailable (o : HelmChart) :
    getCondition (clearUnavailable o).status.conditions ReadyCondition
      = getCondition o.status.conditions ReadyCondition := by
  unfold clearUnavailable
  split
  · rw [conds_deleteCond, getCondition_delete, if_neg (by decide)]
  · rfl

theorem mem_clearUnavailable (o : HelmChart) (c : Condition)
    (h : c ∈ (clearUnavailable o).status.conditions) : c ∈ o.status.conditions := by
  unfold clearUnavailable at h
  by_cases h1 : o.status.artifact.isSome = true
  · rw [if_pos h1, conds_deleteCond] at h
    exact mem_deleteCondition _ _ _ h
  · rw [if_neg h1] at h
    exact h

/-- The deferred block of the publish stage only touches conditions,
never the advertised artifact. -/
theorem artifact_restoreReadyDefer (a : Artifact) (o : HelmChart) :
    (restoreReadyDefer a o).status.artifact = o.status.artifact := by
  unfold restoreReadyDefer
  split
  · rw [artifact_markTrue, artifact_deleteCond, artifact_clearUnavailable]
  · rw [artifact_clearUnavailable]

/-- The ready condition after the deferred block of the publish stage:
set true (with the stored-artifact message) exactly when the advertised
revision equals the built one, untouched otherwise. -/
theorem ready_restoreReadyDefer (a : Artifact) (o : HelmChart) :
    (hasRevision o.status.artifact a.revision = true →
      getCondition (restoreReadyDefer a o).status.conditions ReadyCondition
        = some ⟨ReadyCondition, CStatus.ctrue, SucceededReason,
            "Stored artifact for revision " ++ a.revision⟩) ∧
    (hasRevision o.status.artifact a.revision = false →
      getCondition (restoreReadyDefer a o).status.conditions ReadyCondition
        = getCondition o.status.conditions ReadyCondition) := by
  unfold restoreReadyDefer
  rw [artifact_clearUnavailable]
  constructor
  · intro h2
    rw [if_pos h2, conds_markTrue, getCondition_set, if_pos rfl]
  · intro h2
    rw [if_neg (by rw [h2]; intro hc; cases hc)]
    exact ready_clearUnavailable o

/-- Every condition present after the deferred block of the publish
stage is either the ready-true condition it may add or was already
present. -/
theorem mem_restoreReadyDefer (a : Artifact) (o : HelmChart) (c : Condition)
    (h : c ∈ (restoreReadyDefer a o).status.conditions) :
    c = ⟨ReadyCondition, CStatus.ctrue, SucceededReason,
        "Stored artifact for revision " ++ a.revision⟩ ∨
      c ∈ o.status.conditions := by
  unfold restoreReadyDefer at h
  by_cases h2 : hasRevision (clearUnavailable o).status.artifact a.revision = true
  · rw [if_pos h2, conds_markTrue] at h
    rcases mem_setCondition _ _ _ h with h | h
    · left; exact h
    · right
      exact mem_clearUnavailable o c (mem_deleteCondition _ _ _ (by rw [conds_deleteCond] at h; exact h))
  · rw [if_neg h2] at h
    right
    exact mem_clearUnavailable o c h

/-- Every exit of the publish stage returns an object of the shape
`restoreReadyDefer artifact o` (the deferred block runs on every exit
path), where `o` carries the ready condition of the input object. -/
theorem reconcileArtifact_obj_shape (obj : HelmChart) (artifact : Artifact)
    (path : String) (store : Store) (env : Env) :
    ∃ o : HelmChart,
      (reconcileArtifact obj artifact path store env).obj = restoreReadyDefer artifact o ∧
      getCondition o.status.conditions ReadyCondition
        = getCondition obj.status.conditions ReadyCondition := by
  unfold reconcileArtifact
  by_cases e1 : env.mkdirAllOk = true
  · by_cases e2 : env.lockOk = true
    · by_cases e3 : env.copyOk = true
      · rw [if_neg (fun hc => hc e1), if_neg (fun hc => hc e2),
          if_neg (fun hc => hc e3)]
        refine ⟨_, rfl, ?_⟩
        by_cases e4 : env.symlinkOk = true
        · rw [if_pos e4]
        · rw [if_neg e4]
      · rw [if_neg (fun hc => hc e1), if_neg (fun hc => hc e2),
          if_pos (by simp [e3])]
        exact ⟨obj, rfl, rfl⟩
    · rw [if_neg (fun hc => hc e1), if_pos (by simp [e2])]
      exact ⟨obj, rfl, rfl⟩
  · rw [if_pos (by simp [e1])]
    exact ⟨obj, rfl, rfl⟩

/-- Releasing a freshly acquired lock restores the held-lock set. -/
theorem locks_lock_unlock (store : Store) (a : Artifact)
    (h : ¬ lockPath a ∈ store.locks) :
    (unlockStore (lockStore store a) a).locks = store.locks := by
  unfold unlockStore lockStore
  simp only
  rw [List.erase_append_right _ h, List.erase_cons_head, List.append_nil]

/-- A singleton index matches a key exactly when it equals the singleton
of that key. -/
theorem singleton_contains_eq (k0 key : String) :
    [k0].contains key = decide ([k0] = [key]) := by
  by_cases h : k0 = key <;> simp [h]
  intro hcontra
  exact h hcontra.symm

/-!  Claim theorems. -/

/-- C1: the claim states that a pass over an object whose advertised
revision equals the freshly loaded metadata version and whose generation
is observed performs zero store mutations and zero condition changes.
On the code, `reconcileChart` takes the skip branch but returns a
non-zero result, so `reconcile` continues into `reconcileArtifact` with
the zero-value artifact and empty chart path: with the store copy
failing (as a copy from the empty path must), the pass returns an error
and leaves the reconciling condition set; with the copy succeeding, the
pass overwrites the advertised artifact with the zero artifact and
writes it into the store.  Both runs below start from the steady state
with revision 1.2.0 advertised, fresh metadata version 1.2.0 and
generation 2 = observed generation 2. -/
theorem upToDatePassNotNoop :
    (Reconcile exChart exStore { exEnv with copyOk := false }).err ≠ none ∧
    (Reconcile exChart exStore { exEnv with copyOk := false }).obj.status.conditions
      ≠ exChart.status.conditions ∧
    (Reconcile exChart exStore exEnv).store.entries ≠ exStore.entries ∧
    (Reconcile exChart exStore exEnv).obj.status.artifact = some zeroArtifact := by
  decide

/-- C2: after every pass of a non-suspended object, the summarized ready
condition is present; it is false exactly when one of the four tracked
negative conditions is true, with reason and message copied from the
first true one in the priority order build-failed, fetch-failed,
artifact-outdated, artifact-unavailable; otherwise it is true. -/
theorem readyDerivedFromNegatives (obj : HelmChart) (store : Store) (env : Env)
    (h : obj.suspend = false) :
    readySummaryProp (Reconcile obj store env).obj.status.conditions := by
  unfold Reconcile
  rw [if_neg (by simp [h])]
  rw [conditions_applyDefer]
  exact readySummaryProp_finalizeConds _ _ _

/-- Witness for C2 at the steady-state fixture. -/
theorem readyDerivedFromNegativesWitness :
    exChart.suspend = false ∧
    readySummaryProp (Reconcile exChart exStore exEnv).obj.status.conditions :=
  ⟨rfl, readyDerivedFromNegatives exChart exStore exEnv rfl⟩

/-- C9: when the accessor list of dependent charts fails, each of the
three change-propagation handlers returns the empty request set (and has
no error channel to surface the failure). -/
theorem listFailureDropsFanout (repo : UpstreamSource) (cluster : List HelmChart) :
    requestsForHelmRepositoryChange repo cluster false = [] ∧
    requestsForGitRepositoryChange repo cluster false = [] ∧
    requestsForBucketChange repo cluster false = [] := by
  refine ⟨?_, ?_, ?_⟩
  · unfold requestsForHelmRepositoryChange
    cases repo.artifact <;> simp
  · unfold requestsForGitRepositoryChange
    cases repo.artifact <;> simp
  · unfold requestsForBucketChange
    cases repo.artifact <;> simp

theorem gc_retain_no_artifact (obj : HelmChart) (store : Store) (env : Env)
    (h1 : obj.deletionTimestamp = none) (h2 : obj.status.artifact = none) :
    garbageCollect obj store env = ⟨obj, store, none, []⟩ := by
  unfold garbageCollect
  rw [h1]
  simp [h2]

/-- With no advertised artifact, the storage stage marks
artifact-unavailable and returns requeue-now without error. -/
theorem reconcileStorage_noArtifact (obj : HelmChart) (store : Store) (env : Env)
    (h1 : obj.deletionTimestamp = none) (h2 : obj.status.artifact = none) :
    reconcileStorage obj store env =
      { obj := markTrue obj ArtifactUnavailableCondition "NoArtifact"
          "No artifact for resource in storage"
        store := store, result := ⟨true, 0⟩, err := none, events := [] } := by
  unfold reconcileStorage
  simp only [gc_retain_no_artifact obj store env h1 h2]
  have hdrop : dropMissingArtifact obj store = obj := by
    unfold dropMissingArtifact
    rw [h2]
  rw [hdrop]
  unfold storageVerdict
  rw [h2]

/-- With an advertised artifact still present in the store and a
successful sweep, the storage stage clears artifact-unavailable,
refreshes the URLs and returns the steady-state interval. -/
theorem reconcileStorage_withArtifact (obj : HelmChart) (store : Store) (env : Env)
    (a : Artifact)
    (h1 : obj.deletionTimestamp = none) (h2 : obj.status.artifact = some a)
    (h3 : env.removeAllButCurrentOk = true) (hex : artifactExist store a = true) :
    reconcileStorage obj store env =
      { obj := { deleteCond obj ArtifactUnavailableCondition with status :=
          { (deleteCond obj ArtifactUnavailableCondition).status with
            artifact := some (setArtifactURL store a)
            url := setHostname store obj.status.url } }
        store := removeAllButCurrent store a
        result := ⟨false, obj.interval⟩
        err := none
        events := [⟨"info", "GarbageCollectionSucceeded",
          "Garbage collected old artifacts"⟩] } := by
  have hgc : garbageCollect obj store env =
      ⟨obj, removeAllButCurrent store a, none,
        [⟨"info", "GarbageCollectionSucceeded", "Garbage collected old artifacts"⟩]⟩ := by
    unfold garbageCollect
    simp only [h1, h2, h3, Option.isSome_none, Bool.false_eq_true, if_false, if_true]
  have hex2 : artifactExist (removeAllButCurrent store a) a = true := by
    rw [artifactExist_removeAllButCurrent]
    exact hex
  have hdrop : dropMissingArtifact obj (removeAllButCurrent store a) = obj := by
    unfold dropMissingArtifact
    simp only [h2]
    rw [if_neg (fun hc => hc hex2)]
  unfold reconcileStorage
  simp only [hgc]
  rw [hdrop]
  unfold storageVerdict
  simp only [h2]
  rfl

/-- C10: for an object not under deletion with no advertised artifact,
garbage collection touches neither the object nor the store, returns no
error and emits no event. -/
theorem retainGcNoArtifactNoop (obj : HelmChart) (store : Store) (env : Env)
    (h1 : obj.deletionTimestamp = none) (h2 : obj.status.artifact = none) :
    garbageCollect obj store env = ⟨obj, store, none, []⟩ :=
  gc_retain_no_artifact obj store env h1 h2

/-- Witness for C10 at the artifact-less fixture. -/
theorem retainGcNoArtifactNoopWitness :
    exChartNoArtifact.deletionTimestamp = none ∧
    exChartNoArtifact.status.artifact = none ∧
    garbageCollect exChartNoArtifact exStoreEmpty exEnv =
      ⟨exChartNoArtifact, exStoreEmpty, none, []⟩ :=
  ⟨rfl, rfl, retainGcNoArtifactNoop exChartNoArtifact exStoreEmpty exEnv rfl rfl⟩

/-- C3: for an object under deletion, a failed teardown sweep returns
the error with object, store and finalizers untouched; a successful one
removes every stored artifact in the identity namespace of the object, clears
the advertised artifact, and only then removes the finalizer. -/
theorem deleteTeardownFinalizer (obj : HelmChart) (store : Store) (env : Env)
    (h : obj.deletionTimestamp.isSome = true) :
    (env.removeAllOk = false →
      (reconcileDelete obj store env).err.isSome = true ∧
      (reconcileDelete obj store env).obj.finalizers = obj.finalizers ∧
      (reconcileDelete obj store env).store = store ∧
      (reconcileDelete obj store env).obj.status.artifact = obj.status.artifact) ∧
    (env.removeAllOk = true →
      (reconcileDelete obj store env).err = none ∧
      (reconcileDelete obj store env).obj.status.artifact = none ∧
      (∀ e ∈ (reconcileDelete obj store env).store.entries, ¬ e.objKey = chartObjKey obj) ∧
      ¬ SourceFinalizer ∈ (reconcileDelete obj store env).obj.finalizers) := by
  constructor
  · intro hfail
    have hgc : garbageCollect obj store env =
        { obj := obj, store := store
          err := some "garbage collection for deleted resource failed"
          events := [⟨"error", "GarbageCollectionFailed",
            "Garbage collection for deleted resource failed"⟩] } := by
      unfold garbageCollect
      rw [if_pos h, if_neg (by rw [hfail]; intro hc; cases hc)]
    unfold reconcileDelete
    rw [hgc]
    exact ⟨rfl, rfl, rfl, rfl⟩
  · intro hok
    have hgc : garbageCollect obj store env =
        { obj := { obj with status := { obj.status with artifact := none } }
          store := removeAll store (chartObjKey obj)
          err := none
          events := [⟨"info", "GarbageCollectionSucceeded",
            "Garbage collected artifacts for deleted resource"⟩] } := by
      unfold garbageCollect
      rw [if_pos h, if_pos hok]
    unfold reconcileDelete
    rw [hgc]
    refine ⟨rfl, rfl, ?_, ?_⟩
    · intro e he
      unfold removeAll at he
      simp only [List.mem_filter, ne_eq, decide_eq_true_eq] at he
      exact he.2
    · intro hmem
      have hpred := (List.mem_filter.mp hmem).2
      simp at hpred

/-- Witness for C3 at the deleting fixture, in both sweep outcomes. -/
theorem deleteTeardownFinalizerWitness :
    exChartDeleting.deletionTimestamp.isSome = true ∧
    ((reconcileDelete exChartDeleting exStore { exEnv with removeAllOk := false }).err.isSome
        = true ∧
      (reconcileDelete exChartDeleting exStore { exEnv with removeAllOk := false }).obj.finalizers
        = exChartDeleting.finalizers ∧
      (reconcileDelete exChartDeleting exStore exEnv).err = none ∧
      ¬ SourceFinalizer ∈ (reconcileDelete exChartDeleting exStore exEnv).obj.finalizers) := by
  have h1 := deleteTeardownFinalizer exChartDeleting exStore
    { exEnv with removeAllOk := false } rfl
  have h2 := deleteTeardownFinalizer exChartDeleting exStore exEnv rfl
  obtain ⟨ha, hb, -, -⟩ := h1.1 rfl
  obtain ⟨hc, -, -, hd⟩ := h2.2 rfl
  exact ⟨rfl, ha, hb, hc, hd⟩

/-- C7 counterexample: the claim states a failed retain-current sweep is
reported as an error and aborts the pass.  On the code the error is
discarded (`_ = r.garbageCollect(ctx, obj)`): starting from the steady
state with the sweep failing and the upstream moved to 1.3.0, the pass
returns no error and the later stages still run, publishing 1.3.0. -/
theorem retainGcFailureNoAbort :
    (reconcile exChart exStore exEnvGcFail).err = none ∧
    hasRevision (reconcile exChart exStore exEnvGcFail).obj.status.artifact "1.3.0" = true := by
  decide

/-- C7 amended: a failed retain-current sweep leaves the object and the
store untouched and is reported only through an event; the storage stage
discards the error and the pass is not aborted on its account. -/
theorem retainGcFailureDiscarded (obj : HelmChart) (store : Store) (env : Env) (a : Artifact)
    (h1 : obj.deletionTimestamp = none) (h2 : obj.status.artifact = some a)
    (h3 : env.removeAllButCurrentOk = false) :
    garbageCollect obj store env =
      { obj := obj, store := store
        err := some "garbage collection of old artifacts failed"
        events := [⟨"error", "GarbageCollectionFailed",
          "Garbage collection of old artifacts failed"⟩] } ∧
    (reconcileStorage obj store env).err = none := by
  constructor
  · unfold garbageCollect
    simp only [h1, h2, h3, Option.isSome_none, Bool.false_eq_true, if_false]
  · exact reconcileStorage_err_none obj store env

/-- Witness for the amended C7 theorem at the steady-state fixture. -/
theorem retainGcFailureDiscardedWitness :
    exChart.deletionTimestamp = none ∧
    exChart.status.artifact = some exArtifact ∧
    exEnvGcFail.removeAllButCurrentOk = false ∧
    (reconcileStorage exChart exStore exEnvGcFail).err = none :=
  ⟨rfl, rfl, rfl,
    (retainGcFailureDiscarded exChart exStore exEnvGcFail exArtifact rfl rfl rfl).2⟩

/-- C4 counterexample: the claim states that a store-copy failure leaves
ready false with a storage-failure reason.  On the code the failure is
reported only through the returned error and an event, no condition
records it: rebuilding 1.2.0 over advertised 1.1.0 with the copy
failing, the pass returns an error yet the summarized ready condition is
true with the succeeded reason. -/
theorem copyFailReadyNotStorageReason :
    (Reconcile exChartOld exStoreOld { exEnv with copyOk := false }).err ≠ none ∧
    getCondition
        (Reconcile exChartOld exStoreOld { exEnv with copyOk := false }).obj.status.conditions
        ReadyCondition
      = some ⟨ReadyCondition, CStatus.ctrue, SucceededReason, ""⟩ := by
  decide

/-- C4 amended: when the store copy fails in the publish stage, the pass
returns the error, a storage-operation-failure event is emitted (no
condition records the failure, so ready is not set false on its
account), the advertised artifact and the store content are unchanged,
and the per-artifact lock is released. -/
theorem copyFailErrorNoPublish (obj : HelmChart) (artifact : Artifact) (path : String)
    (store : Store) (env : Env)
    (h1 : env.mkdirAllOk = true) (h2 : env.lockOk = true) (h3 : env.copyOk = false)
    (h4 : ¬ lockPath artifact ∈ store.locks) :
    (reconcileArtifact obj artifact path store env).err.isSome = true ∧
    (reconcileArtifact obj artifact path store env).obj.status.artifact
      = obj.status.artifact ∧
    (reconcileArtifact obj artifact path store env).store.entries = store.entries ∧
    (reconcileArtifact obj artifact path store env).store.locks = store.locks ∧
    (reconcileArtifact obj artifact path store env).events
      = [⟨"error", StorageOperationFailedReason,
          "Failed to write Helm repository index to storage"⟩] ∧
    (∀ c ∈ (reconcileArtifact obj artifact path store env).obj.status.conditions,
      c.reason = StorageOperationFailedReason → c ∈ obj.status.conditions) := by
  have hbody : reconcileArtifact obj artifact path store env =
      { obj := restoreReadyDefer artifact obj
        store := unlockStore (lockStore store artifact) artifact
        result := ⟨false, 0⟩
        err := some "failed to copy chart to storage"
        events := [⟨"error", StorageOperationFailedReason,
          "Failed to write Helm repository index to storage"⟩] } := by
    unfold reconcileArtifact
    rw [if_neg (fun hc => hc h1), if_neg (fun hc => hc h2),
      if_pos (by rw [h3]; intro hc; cases hc)]
  rw [hbody]
  refine ⟨rfl, artifact_restoreReadyDefer artifact obj, rfl,
    locks_lock_unlock store artifact h4, rfl, ?_⟩
  intro c hc hreason
  rcases mem_restoreReadyDefer artifact obj c hc with hc | hc
  · rw [hc] at hreason
    have hne : ¬ SucceededReason = StorageOperationFailedReason := by decide
    exact absurd hreason hne
  · exact hc

/-- Witness for the amended C4 theorem at the rebuild-over-1.1.0 fixture. -/
theorem copyFailErrorNoPublishWitness :
    ({ exEnv with copyOk := false } : Env).mkdirAllOk = true ∧
    ({ exEnv with copyOk := false } : Env).lockOk = true ∧
    ({ exEnv with copyOk := false } : Env).copyOk = false ∧
    ¬ lockPath exFreshArtifact ∈ exStoreOld.locks ∧
    (reconcileArtifact exChartOld exFreshArtifact "/tmp/app-1.2.0.tgz" exStoreOld
        { exEnv with copyOk := false }).err.isSome = true :=
  ⟨rfl, rfl, rfl, by decide,
    (copyFailErrorNoPublish exChartOld exFreshArtifact "/tmp/app-1.2.0.tgz" exStoreOld
      { exEnv with copyOk := false } rfl rfl rfl (by decide)).1⟩

/-- C5 counterexample: the claim states ready is set true by the publish
stage only when publication succeeded and the advertised revision equals
the freshly built one.  On the code the deferred block marks ready true
whenever the revisions match, even when the copy failed: publishing
revision 1.2.0 over an advertised 1.2.0 with the copy failing returns an
error yet marks ready true. -/
theorem readyMarkedDespiteFailedPublish :
    (reconcileArtifact exChart exFreshArtifact "/tmp/app-1.2.0.tgz" exStore
        { exEnv with copyOk := false }).err ≠ none ∧
    getCondition
        (reconcileArtifact exChart exFreshArtifact "/tmp/app-1.2.0.tgz" exStore
          { exEnv with copyOk := false }).obj.status.conditions
        ReadyCondition
      = some ⟨ReadyCondition, CStatus.ctrue, SucceededReason,
          "Stored artifact for revision 1.2.0"⟩ := by
  decide

/-- C5 amended: the publish stage marks ready true exactly when, at its
exit, the advertised artifact revision equals the freshly built one —
also on failed publication when the previously advertised artifact
already has that revision; when the revisions differ the stage leaves
the ready condition untouched. -/
theorem publishReadyGatedByRevision (obj : HelmChart) (artifact : Artifact) (path : String)
    (store : Store) (env : Env) :
    (hasRevision (reconcileArtifact obj artifact path store env).obj.status.artifact
        artifact.revision = true →
      getCondition (reconcileArtifact obj artifact path store env).obj.status.conditions
          ReadyCondition
        = some ⟨ReadyCondition, CStatus.ctrue, SucceededReason,
            "Stored artifact for revision " ++ artifact.revision⟩) ∧
    (hasRevision (reconcileArtifact obj artifact path store env).obj.status.artifact
        artifact.revision = false →
      getCondition (reconcileArtifact obj artifact path store env).obj.status.conditions
          ReadyCondition
        = getCondition obj.status.conditions ReadyCondition) := by
  obtain ⟨o, ho, hoc⟩ := reconcileArtifact_obj_shape obj artifact path store env
  rw [ho, artifact_restoreReadyDefer]
  have h := ready_restoreReadyDefer artifact o
  exact ⟨h.1, fun hf => (h.2 hf).trans hoc⟩

/-- Witness for the amended C5 theorem: a successful publish of 1.2.0
marks ready true for that revision. -/
theorem publishReadyGatedByRevisionWitness :
    hasRevision (reconcileArtifact exChart exFreshArtifact "/tmp/app-1.2.0.tgz" exStore
        exEnv).obj.status.artifact exFreshArtifact.revision = true ∧
    getCondition (reconcileArtifact exChart exFreshArtifact "/tmp/app-1.2.0.tgz" exStore
        exEnv).obj.status.conditions ReadyCondition
      = some ⟨ReadyCondition, CStatus.ctrue, SucceededReason,
          "Stored artifact for revision " ++ exFreshArtifact.revision⟩ :=
  ⟨by decide,
    (publishReadyGatedByRevision exChart exFreshArtifact "/tmp/app-1.2.0.tgz" exStore
      exEnv).1 (by decide)⟩

/-- C6 counterexample: the claim states that with no advertised artifact
the pass requests a retry with no further stages running.  On the code
the caller treats the non-zero requeue-now result as success and runs
the remaining stages: starting with no artifact and all collaborator
calls succeeding, the pass result is the steady interval rather than
requeue-now, an artifact is published in the same pass, and the
artifact-unavailable condition ends up cleared rather than set. -/
theorem noArtifactStillBuilds :
    (Reconcile exChartNoArtifact exStoreEmpty exEnv).result ≠ (⟨true, 0⟩ : CtrlResult) ∧
    (Reconcile exChartNoArtifact exStoreEmpty exEnv).obj.status.artifact.isSome = true ∧
    isTrueCond (Reconcile exChartNoArtifact exStoreEmpty exEnv).obj.status.conditions
      ArtifactUnavailableCondition = false := by
  decide

/-- C6 amended: with no advertised artifact the storage stage marks
artifact-unavailable and returns a requeue-now result without error
(with an advertised artifact still in the store it clears the condition,
refreshes the URLs to the current store endpoint and returns the
steady-state interval); the caller however treats any non-zero result as
success, so the remaining stages still run in the same pass and, when
the collaborator calls succeed, publish an artifact. -/
theorem storageStageNoArtifact (obj : HelmChart) (store : Store) (env : Env) :
    (obj.deletionTimestamp = none → obj.status.artifact = none →
      (reconcileStorage obj store env).result = ⟨true, 0⟩ ∧
      (reconcileStorage obj store env).err = none ∧
      isTrueCond (reconcileStorage obj store env).obj.status.conditions
        ArtifactUnavailableCondition = true ∧
      (reconcileStorage obj store env).store = store) ∧
    (∀ a, obj.deletionTimestamp = none → obj.status.artifact = some a →
      env.removeAllButCurrentOk = true → artifactExist store a = true →
      (reconcileStorage obj store env).result = ⟨false, obj.interval⟩ ∧
      (reconcileStorage obj store env).err = none ∧
      isTrueCond (reconcileStorage obj store env).obj.status.conditions
        ArtifactUnavailableCondition = false ∧
      (reconcileStorage obj store env).obj.status.artifact = some (setArtifactURL store a) ∧
      (reconcileStorage obj store env).obj.status.url = setHostname store obj.status.url) ∧
    (obj.deletionTimestamp = none → obj.status.artifact = none →
      obj.valuesFiles = [] → ¬ obj.interval = 0 →
      env.mkdirTempOk = true → env.sourceOk = true → env.loadMetadataOk = true →
      env.chartIsDirOk = true → env.chartIsDir = false → env.buildOk = true →
      env.mkdirAllOk = true → env.lockOk = true → env.copyOk = true →
      env.symlinkOk = true →
      (reconcile obj store env).err = none ∧
      (reconcile obj store env).obj.status.artifact.isSome = true) := by
  refine ⟨?_, ?_, ?_⟩
  · intro h1 h2
    rw [reconcileStorage_noArtifact obj store env h1 h2]
    refine ⟨rfl, rfl, ?_, rfl⟩
    show isTrueCond (setCondition obj.status.conditions
      ⟨ArtifactUnavailableCondition, CStatus.ctrue, "NoArtifact",
        "No artifact for resource in storage"⟩) ArtifactUnavailableCondition = true
    rw [isTrueCond_set, if_pos rfl]
    rfl
  · intro a h1 h2 h3 hex
    rw [reconcileStorage_withArtifact obj store env a h1 h2 h3 hex]
    refine ⟨rfl, rfl, ?_, rfl, rfl⟩
    show isTrueCond (deleteCondition obj.status.conditions ArtifactUnavailableCondition)
      ArtifactUnavailableCondition = false
    rw [isTrueCond_delete, if_pos rfl]
  · intro h1 h2 hvf hi hm hsrc hlm hcd hcdir hb hmk hlk hcp hsy
    have h2m : (markTrue obj ReconcilingCondition "Reconciling" "").status.artifact = none := h2
    have h1m : (markTrue obj ReconcilingCondition "Reconciling" "").deletionTimestamp = none := h1
    have hs := reconcileStorage_noArtifact _ store env h1m h2m
    simp only [reconcile, hs]
    simp [reconcileSource, reconcileChart, reconcileArtifact, restoreReadyDefer,
      clearUnavailable, markTrue, deleteCond, hasRevision, newArtifactFor,
      CtrlResult.isZero, h2, hvf, hi, hm, hsrc, hlm, hcd, hcdir, hb, hmk, hlk, hcp, hsy]

/-- Witness for the amended C6 theorem at the artifact-less fixture. -/
theorem storageStageNoArtifactWitness :
    exChartNoArtifact.deletionTimestamp = none ∧
    exChartNoArtifact.status.artifact = none ∧
    ((reconcileStorage exChartNoArtifact exStoreEmpty exEnv).result = ⟨true, 0⟩ ∧
      (reconcileStorage exChartNoArtifact exStoreEmpty exEnv).err = none ∧
      isTrueCond (reconcileStorage exChartNoArtifact exStoreEmpty exEnv).obj.status.conditions
        ArtifactUnavailableCondition = true ∧
      (reconcileStorage exChartNoArtifact exStoreEmpty exEnv).store = exStoreEmpty) ∧
    ((reconcile exChartNoArtifact exStoreEmpty exEnv).err = none ∧
      (reconcile exChartNoArtifact exStoreEmpty exEnv).obj.status.artifact.isSome = true) :=
  ⟨rfl, rfl,
    (storageStageNoArtifact exChartNoArtifact exStoreEmpty exEnv).1 rfl rfl,
    (storageStageNoArtifact exChartNoArtifact exStoreEmpty exEnv).2.2 rfl rfl rfl
      (by decide) rfl rfl rfl rfl rfl rfl rfl rfl rfl rfl⟩

/-- C8: each of the three change-propagation handlers returns the empty
request set when its source has no published artifact, and otherwise
(with the list call succeeding) exactly one reconcile request per chart
indexed under the kind/name key of that source. -/
theorem changeFanoutRequests (repo : UpstreamSource) (cluster : List HelmChart) :
    (repo.artifact = none →
      requestsForHelmRepositoryChange repo cluster true = [] ∧
      requestsForGitRepositoryChange repo cluster true = [] ∧
      requestsForBucketChange repo cluster true = []) ∧
    (repo.artifact.isSome = true →
      requestsForHelmRepositoryChange repo cluster true
        = (cluster.filter (fun hc =>
            indexHelmChartBySource hc = [HelmRepositoryKind ++ "/" ++ repo.name])).map
            requestFor ∧
      requestsForGitRepositoryChange repo cluster true
        = (cluster.filter (fun hc =>
            indexHelmChartBySource hc = [GitRepositoryKind ++ "/" ++ repo.name])).map
            requestFor ∧
      requestsForBucketChange repo cluster true
        = (cluster.filter (fun hc =>
            indexHelmChartBySource hc = [BucketKind ++ "/" ++ repo.name])).map
            requestFor) := by
  have hmap : ∀ key : String,
      (listChartsBySourceKey cluster key).map requestFor
        = (cluster.filter (fun hc => indexHelmChartBySource hc = [key])).map requestFor := by
    intro key
    unfold listChartsBySourceKey
    congr 1
    apply filter_congr_pred
    intro x _
    unfold indexHelmChartBySource
    exact singleton_contains_eq _ _
  constructor
  · intro h
    refine ⟨?_, ?_, ?_⟩
    · unfold requestsForHelmRepositoryChange
      rw [h]
    · unfold requestsForGitRepositoryChange
      rw [h]
    · unfold requestsForBucketChange
      rw [h]
  · intro h
    obtain ⟨a, ha⟩ := Option.isSome_iff_exists.mp h
    refine ⟨?_, ?_, ?_⟩
    · unfold requestsForHelmRepositoryChange
      rw [ha]
      rw [if_neg (fun hc => hc rfl)]
      exact hmap _
    · unfold requestsForGitRepositoryChange
      rw [ha]
      rw [if_neg (fun hc => hc rfl)]
      exact hmap _
    · unfold requestsForBucketChange
      rw [ha]
      rw [if_neg (fun hc => hc rfl)]
      exact hmap _

/-- Witness for C8 at a two-chart cluster: the handler fans out exactly
to the chart indexed under the key of the repository. -/
theorem changeFanoutRequestsWitness :
    exRepo.artifact.isSome = true ∧
    requestsForHelmRepositoryChange exRepo exCluster true
      = (exCluster.filter (fun hc =>
          indexHelmChartBySource hc = [HelmRepositoryKind ++ "/" ++ exRepo.name])).map
          requestFor :=
  ⟨rfl, ((changeFanoutRequests exRepo exCluster).2 rfl).1⟩

end SrcCtrl
